import Mathlib

/-!
# Verification of the model-evaluation notebooks

A shallow embedding of the three notebooks of this repository:

* `cross_validation_baseline.ipynb` — California housing, a seeded
  `ShuffleSplit(n_splits=30, test_size=0.2, random_state=0)`, a decision-tree
  regressor compared against a `DummyRegressor` baseline, and a
  `permutation_test_score` with 30 label shuffles;
* `cross_validation_learning_curve.ipynb` — a `learning_curve` sweep over
  `np.linspace(0.1, 1.0, 5)` train-size fractions with an unseeded
  `ShuffleSplit(n_splits=30, test_size=0.2)`, followed by nested
  cross-validation (`GridSearchCV` inside `cross_val_score`, both `KFold(4)`)
  on the breast-cancer data;
* `feature_selection_limitation_model.ipynb` — `cross_validate` of a random
  forest with and without a `SelectFromModel` step in a pipeline.

The notebooks contain no algorithms of their own: every operation is a call
into scikit-learn.  The embedding therefore models the *index bookkeeping*
of those library routines exactly (which sample indices each split, grid
search, permutation or learning-curve tick reads and scores), while the
numeric estimators that the library fits (decision trees, SVC, random
forests) are abstract parameters: a fitted estimator is a function from a
training sample to a predictor.  Scores are exact rationals.

Datasets: California housing has 20640 rows, breast cancer 569 rows, the
synthetic classification data 5000 rows.
-/

namespace MLNotebooks

/-- Number of samples in the California housing dataset. -/
abbrev nCH : Nat := 20640

/-- Number of samples in the breast-cancer dataset. -/
abbrev nBC : Nat := 569

/-- Number of samples in the `make_classification` dataset. -/
abbrev nFS : Nat := 5000

/-! ## Index permutations and the two splitters -/

/-- Modelled from the spec: scikit-learn shuffles the sample indices with a
permutation drawn from its random number generator; the permutation itself is
an abstract parameter here.  `permutedIndices n π` is the shuffled index
list `permutation(n)`. -/
def permutedIndices (n : Nat) (π : Equiv.Perm (Fin n)) : List (Fin n) :=
  (List.finRange n).map π

/-- Modelled from the spec: scikit-learn's `_validate_shuffle_split` computes
`n_test = ceil(test_size * n)` for a fractional `test_size = num/den`;
here in exact arithmetic. -/
def nTestOf (n num den : Nat) : Nat := (n * num + den - 1) / den

/-- Modelled from the spec: a `ShuffleSplit` split takes the first `nTest`
shuffled indices as the test set. -/
def shuffleTestIdx (n nTest : Nat) (π : Equiv.Perm (Fin n)) : List (Fin n) :=
  (permutedIndices n π).take nTest

/-- Modelled from the spec: a `ShuffleSplit` split takes the remaining
shuffled indices (train_size defaults to the complement) as the train set. -/
def shuffleTrainIdx (n nTest : Nat) (π : Equiv.Perm (Fin n)) : List (Fin n) :=
  (permutedIndices n π).drop nTest

/-- Start offset of the `i`-th of `k` contiguous `KFold` folds over `n`
samples: the first `n % k` folds are one element longer. -/
def kfoldStart (n k i : Nat) : Nat := i * (n / k) + min i (n % k)

/-- Length of the `i`-th of `k` contiguous `KFold` folds over `n` samples. -/
def kfoldLen (n k i : Nat) : Nat := n / k + if i < n % k then 1 else 0

/-- Modelled from the spec: the test slice of the `i`-th `KFold` fold of a
(shuffled) list `l` of samples or indices. -/
def kfTest (l : List β) (k i : Nat) : List β :=
  (l.drop (kfoldStart l.length k i)).take (kfoldLen l.length k i)

/-- Modelled from the spec: the train part of the `i`-th `KFold` fold — all
of `l` outside the test slice. -/
def kfTrain (l : List β) (k i : Nat) : List β :=
  l.take (kfoldStart l.length k i) ++
    l.drop (kfoldStart l.length k i + kfoldLen l.length k i)

/-- Test index list of the `i`-th fold of a shuffled `KFold(k)` over `Fin n`. -/
def kfoldTestIdx (n k : Nat) (π : Equiv.Perm (Fin n)) (i : Nat) : List (Fin n) :=
  kfTest (permutedIndices n π) k i

/-- Train index list of the `i`-th fold of a shuffled `KFold(k)` over `Fin n`. -/
def kfoldTrainIdx (n k : Nat) (π : Equiv.Perm (Fin n)) (i : Nat) : List (Fin n) :=
  kfTrain (permutedIndices n π) k i

/-! ## Regressors, scoring and `cross_validate`

A fitted regressor is abstract: a function from a training sample (rows
paired with targets) to a predictor.  `DecisionTreeRegressor` is such a
function; `DummyRegressor` is the concrete one below. -/

/-- A regression estimator: fitting maps a training sample to a predictor. -/
def Regressor (α : Type) : Type := List (α × ℚ) → α → ℚ

/-- The training sample materialised from a list of row indices. -/
def rsample (data : Fin n → α) (target : Fin n → ℚ) (idx : List (Fin n)) :
    List (α × ℚ) :=
  idx.map fun i => (data i, target i)

/-- Mean absolute error of a predictor over the rows listed in `idx`. -/
def meanAbsErr (pred : α → ℚ) (data : Fin n → α) (target : Fin n → ℚ)
    (idx : List (Fin n)) : ℚ :=
  ((idx.map fun i => |pred (data i) - target i|).sum) / (idx.length : ℚ)

/-- Modelled from the spec: the library's `"neg_mean_absolute_error"` scorer,
the negated mean absolute error. -/
def negMeanAbsErr (pred : α → ℚ) (data : Fin n → α) (target : Fin n → ℚ)
    (idx : List (Fin n)) : ℚ :=
  - meanAbsErr pred data target idx

/-- Modelled from the spec: `DummyRegressor()` (default `strategy="mean"`)
remembers the mean of the training targets and predicts it for every input. -/
def dummyRegressor : Regressor α :=
  fun s _ => (s.map Prod.snd).sum / (s.length : ℚ)

/-- Test size of `ShuffleSplit(test_size=0.2)` on California housing. -/
def chTestSize : Nat := nTestOf nCH 1 5

/-- Train indices of one baseline `ShuffleSplit` split. -/
def chTrainIdx (π : Equiv.Perm (Fin nCH)) : List (Fin nCH) :=
  shuffleTrainIdx nCH chTestSize π

/-- Test indices of one baseline `ShuffleSplit` split. -/
def chTestIdx (π : Equiv.Perm (Fin nCH)) : List (Fin nCH) :=
  shuffleTestIdx nCH chTestSize π

/-- Modelled from the spec: the test score `cross_validate` computes for
split `j` — fit the (cloned) estimator on the split's train rows, score it
on the split's test rows with the requested scorer. -/
def cvFoldScore (reg : Regressor α) (data : Fin nCH → α)
    (target : Fin nCH → ℚ) (πs : Nat → Equiv.Perm (Fin nCH)) (j : Nat) : ℚ :=
  negMeanAbsErr (reg (rsample data target (chTrainIdx (πs j)))) data target
    (chTestIdx (πs j))

/-- The `test_score` array of `cross_validate(..., cv=cv)` with the
30-split baseline `ShuffleSplit`. -/
def cvTestScores (reg : Regressor α) (data : Fin nCH → α)
    (target : Fin nCH → ℚ) (πs : Nat → Equiv.Perm (Fin nCH)) : List ℚ :=
  (List.range 30).map (cvFoldScore reg data target πs)

/-- The notebooks' `errors = -scores` element-wise negation. -/
def errorsOf (scores : List ℚ) : List ℚ := scores.map fun s => -s

/-- The learning-curve notebook's `train_errors, test_errors =
-train_scores, -test_scores`: element-wise negation of a score matrix. -/
def errorsOfMatrix (scores : List (List ℚ)) : List (List ℚ) :=
  scores.map errorsOf

/-- Mean cross-validation score over the 30 splits, as used by
`permutation_test_score`. -/
def cvMeanScore (reg : Regressor α) (data : Fin nCH → α)
    (target : Fin nCH → ℚ) (πs : Nat → Equiv.Perm (Fin nCH)) : ℚ :=
  (cvTestScores reg data target πs).sum / 30

/-! ## `permutation_test_score` -/

/-- A target vector rearranged by the label shuffle `σ`. -/
def permutedTarget (target : Fin nCH → ℚ) (σ : Equiv.Perm (Fin nCH)) :
    Fin nCH → ℚ :=
  fun i => target (σ i)

/-- Modelled from the spec: the `n_permutations=30` permutation scores of
`permutation_test_score` — for each label shuffle `σs j`, the mean
cross-validation score of the estimator on the unchanged `data` paired with
the shuffled target. -/
def permutationScores (reg : Regressor α) (data : Fin nCH → α)
    (target : Fin nCH → ℚ) (πs σs : Nat → Equiv.Perm (Fin nCH)) : List ℚ :=
  (List.range 30).map fun j =>
    cvMeanScore reg data (permutedTarget target (σs j)) πs

/-- The observed (unpermuted) score reported by `permutation_test_score`. -/
def permutationObservedScore (reg : Regressor α) (data : Fin nCH → α)
    (target : Fin nCH → ℚ) (πs : Nat → Equiv.Perm (Fin nCH)) : ℚ :=
  cvMeanScore reg data target πs

/-- Modelled from the spec: the p-value of `permutation_test_score`,
`(#{permutation scores ≥ observed} + 1) / (n_permutations + 1)`. -/
def permutationPValue (reg : Regressor α) (data : Fin nCH → α)
    (target : Fin nCH → ℚ) (πs σs : Nat → Equiv.Perm (Fin nCH)) : ℚ :=
  (((permutationScores reg data target πs σs).countP
      fun s => permutationObservedScore reg data target πs ≤ s) + 1 : ℚ) / 31

/-! ## `learning_curve` -/

/-- Modelled from the spec: `np.linspace(a, b, num)` with `endpoint=True`,
in exact arithmetic. -/
def linspaceQ (a b : ℚ) (num : Nat) : List ℚ :=
  (List.range num).map fun i => a + (b - a) * i / ((num - 1 : Nat) : ℚ)

/-- The notebook's `train_sizes = np.linspace(0.1, 1.0, num=5)`. -/
def lcTrainSizes : List ℚ := linspaceQ (1/10) 1 5

/-- Modelled from the spec: for a train-size fraction `f`, `learning_curve`
keeps the first `floor(f * n_max_train)` train indices of the split. -/
def lcSubTrainIdx (π : Equiv.Perm (Fin nCH)) (f : ℚ) : List (Fin nCH) :=
  (chTrainIdx π).take (Int.toNat ⌊f * ((chTrainIdx π).length : ℚ)⌋)

/-- The training-score matrix of `learning_curve`: one row per train-size
fraction, one column per `ShuffleSplit` split, scoring the fitted estimator
on the rows it was trained on. -/
def lcTrainScores (reg : Regressor α) (data : Fin nCH → α)
    (target : Fin nCH → ℚ) (πs : Nat → Equiv.Perm (Fin nCH)) :
    List (List ℚ) :=
  lcTrainSizes.map fun f =>
    (List.range 30).map fun j =>
      negMeanAbsErr (reg (rsample data target (lcSubTrainIdx (πs j) f)))
        data target (lcSubTrainIdx (πs j) f)

/-- The testing-score matrix of `learning_curve`: one row per train-size
fraction, one column per `ShuffleSplit` split, scoring the fitted estimator
on the split's full test fold. -/
def lcTestScores (reg : Regressor α) (data : Fin nCH → α)
    (target : Fin nCH → ℚ) (πs : Nat → Equiv.Perm (Fin nCH)) :
    List (List ℚ) :=
  lcTrainSizes.map fun f =>
    (List.range 30).map fun j =>
      negMeanAbsErr (reg (rsample data target (lcSubTrainIdx (πs j) f)))
        data target (chTestIdx (πs j))

/-- The absolute train sizes (`train_size`, first component of the result
triple) returned by `learning_curve`. -/
def lcAbsSizes (πs : Nat → Equiv.Perm (Fin nCH)) : List Nat :=
  lcTrainSizes.map fun f => (lcSubTrainIdx (πs 0) f).length

/-! ## Classification, `GridSearchCV` and nested cross-validation

The nested-cross-validation notebook tunes an `SVC` over
`param_grid = {"C": [0.1, 1, 10], "gamma": [.01, .1]}` with an inner
`KFold(4)` and estimates performance with `cross_val_score` over an outer
`KFold(4)` on the breast-cancer data (569 rows, binary target). -/

/-- An `SVC` hyperparameter setting `(C, gamma)`. -/
abbrev SVCParams : Type := ℚ × ℚ

/-- The notebook's `param_grid`, in scikit-learn's iteration order
(sorted keys: `C` outer, `gamma` inner). -/
def paramGrid : List SVCParams :=
  [(1/10, 1/100), (1/10, 1/10), (1, 1/100), (1, 1/10), (10, 1/100), (10, 1/10)]

/-- An abstract `SVC` family: for each hyperparameter setting, fitting maps
a training sample to a predictor. -/
def SVCFamily (α : Type) : Type := SVCParams → List (α × Bool) → α → Bool

/-- The classification training sample materialised from row indices. -/
def csample (data : Fin nBC → α) (target : Fin nBC → Bool)
    (idx : List (Fin nBC)) : List (α × Bool) :=
  idx.map fun i => (data i, target i)

/-- Accuracy of a predictor over a sample of labelled rows (the default
`SVC` scorer). -/
def accuracyOn (pred : α → Bool) (s : List (α × Bool)) : ℚ :=
  ((s.countP fun r => pred r.1 == r.2 : Nat) : ℚ) / (s.length : ℚ)

/-- Modelled from the spec: the mean inner 4-fold cross-validation score of
one hyperparameter setting inside `GridSearchCV.fit`.  The fit receives only
the training sample `s`; `sh` is the inner `KFold(shuffle=True)` shuffle of
that sample. -/
def innerCVMeanScore (clf : SVCFamily α) (p : SVCParams)
    (sh : List (α × Bool) → List (α × Bool)) (s : List (α × Bool)) : ℚ :=
  (((List.range 4).map fun i =>
      accuracyOn (clf p (kfTrain (sh s) 4 i)) (kfTest (sh s) 4 i)).sum) / 4

/-- First maximiser of `f` in `l` (scikit-learn's `argmax` of the mean test
scores keeps the first index attaining the maximum). -/
def argmaxFirst (f : β → ℚ) (l : List β) : Option β :=
  l.foldl
    (fun acc b =>
      match acc with
      | none => some b
      | some a => if f a < f b then some b else some a)
    none

/-- Modelled from the spec: `GridSearchCV.fit` on a training sample picks the
grid point with the best mean inner cross-validation score. -/
def gridSearchBestParams (clf : SVCFamily α)
    (sh : List (α × Bool) → List (α × Bool)) (s : List (α × Bool)) :
    SVCParams :=
  (argmaxFirst (fun p => innerCVMeanScore clf p sh s) paramGrid).getD
    (1/10, 1/100)

/-- Train indices of outer fold `f` of the outer `KFold(4, shuffle=True)`. -/
def outerTrainIdxBC (π : Equiv.Perm (Fin nBC)) (f : Nat) : List (Fin nBC) :=
  kfoldTrainIdx nBC 4 π f

/-- Test indices of outer fold `f` of the outer `KFold(4, shuffle=True)`. -/
def outerTestIdxBC (π : Equiv.Perm (Fin nBC)) (f : Nat) : List (Fin nBC) :=
  kfoldTestIdx nBC 4 π f

/-- Modelled from the spec: one outer-fold test score of
`cross_val_score(GridSearchCV(...), ...)`: the grid search is fitted on the
outer training rows only (inner CV plus final refit), and the refitted best
estimator is scored on the outer test rows. -/
def nestedFoldScore (clf : SVCFamily α)
    (sh : List (α × Bool) → List (α × Bool)) (data : Fin nBC → α)
    (target : Fin nBC → Bool) (π : Equiv.Perm (Fin nBC)) (f : Nat) : ℚ :=
  accuracyOn
    (clf (gridSearchBestParams clf sh (csample data target (outerTrainIdxBC π f)))
      (csample data target (outerTrainIdxBC π f)))
    (csample data target (outerTestIdxBC π f))

/-- The `test_score` array of the nested cross-validation: one score per
outer fold. -/
def nestedCVScores (clf : SVCFamily α)
    (sh : List (α × Bool) → List (α × Bool)) (data : Fin nBC → α)
    (target : Fin nBC → Bool) (π : Equiv.Perm (Fin nBC)) : List ℚ :=
  (List.range 4).map (nestedFoldScore clf sh data target π)

/-! ## Seeding of `ShuffleSplit` (reproducibility) -/

/-- The constructor arguments of the notebooks' `ShuffleSplit` objects that
matter for reproducibility. -/
structure ShuffleSplitSpec where
  nSplits : Nat
  randomState : Option Nat

/-- The baseline notebook's `ShuffleSplit(n_splits=30, test_size=0.2,
random_state=0)`. -/
def baselineCVSpec : ShuffleSplitSpec := ⟨30, some 0⟩

/-- The learning-curve notebook's `ShuffleSplit(n_splits=30,
test_size=0.2)`: no seed. -/
def learningCurveCVSpec : ShuffleSplitSpec := ⟨30, none⟩

/-- A simple linear congruential step, standing in for the library's
pseudo-random generator state transition. -/
def lcgStep (x : Nat) : Nat := (1103515245 * x + 12345) % 2147483648

/-- Modelled from the spec: the permutation stream of a seeded generator —
a deterministic function of the seed alone.  The library's exact stream
(NumPy's Mersenne Twister) is not part of this repository; every claim below
depends only on the stream being determined by the seed, so it is modelled
as powers of a rotation indexed by a congruential function of the seed. -/
def seededPermStream (seed : Nat) : Nat → Equiv.Perm (Fin nCH) :=
  fun j => (finRotate nCH) ^ (lcgStep (seed + 31 * j))

/-- The permutation stream a `ShuffleSplit` actually uses in one run: the
seed-determined stream when `random_state` is set, otherwise fresh entropy
of that run. -/
def streamFor (spec : ShuffleSplitSpec)
    (entropy : Nat → Equiv.Perm (Fin nCH)) : Nat → Equiv.Perm (Fin nCH) :=
  match spec.randomState with
  | some s => seededPermStream s
  | none => entropy

/-- The train/test index splits one run of a `ShuffleSplit` object
generates on the California housing data. -/
def ssSplitsRun (spec : ShuffleSplitSpec)
    (entropy : Nat → Equiv.Perm (Fin nCH)) :
    List (List (Fin nCH) × List (Fin nCH)) :=
  (List.range spec.nSplits).map fun j =>
    (shuffleTrainIdx nCH chTestSize (streamFor spec entropy j),
     shuffleTestIdx nCH chTestSize (streamFor spec entropy j))

/-! ## Parallel fold evaluation (`n_jobs=2`)

Each fold evaluation is a pure function of the fold index; a parallel run
is modelled as executing those evaluations in an arbitrary order (the
interleaving chosen by the scheduler) and writing each result into its
fold's slot. -/

/-- Run the work units `g` in the scheduler-chosen `order`, recording each
unit's result in its own slot.  The unit index `ι` ranges over folds, grid
candidate–fold pairs, or train-size–split pairs, depending on the library
call. -/
def execSched {ι ρ : Type} [DecidableEq ι] (g : ι → ρ) (order : List ι) :
    ι → Option ρ :=
  order.foldl (fun acc i => Function.update acc i (some (g i))) fun _ => none

/-- One parallel work unit of `GridSearchCV.fit`: the accuracy of candidate
`p` fitted on inner-fold `i`'s training part and scored on its test slice. -/
def gridCandidateFoldScore (clf : SVCFamily α)
    (sh : List (α × Bool) → List (α × Bool)) (s : List (α × Bool))
    (p : SVCParams) (i : Nat) : ℚ :=
  accuracyOn (clf p (kfTrain (sh s) 4 i)) (kfTest (sh s) 4 i)

/-- One parallel work unit of `learning_curve`, training side: the training
score of split `j` at the `t`-th train-size fraction. -/
def lcUnitTrainScore (reg : Regressor α) (data : Fin nCH → α)
    (target : Fin nCH → ℚ) (πs : Nat → Equiv.Perm (Fin nCH))
    (t j : Nat) : ℚ :=
  negMeanAbsErr
    (reg (rsample data target (lcSubTrainIdx (πs j) (lcTrainSizes.getD t 1))))
    data target (lcSubTrainIdx (πs j) (lcTrainSizes.getD t 1))

/-- One parallel work unit of `learning_curve`, testing side: the test
score of split `j` at the `t`-th train-size fraction. -/
def lcUnitTestScore (reg : Regressor α) (data : Fin nCH → α)
    (target : Fin nCH → ℚ) (πs : Nat → Equiv.Perm (Fin nCH))
    (t j : Nat) : ℚ :=
  negMeanAbsErr
    (reg (rsample data target (lcSubTrainIdx (πs j) (lcTrainSizes.getD t 1))))
    data target (chTestIdx (πs j))

/-! ## The baseline notebook as a sequential program

The notebook's mutable environment is the pair of variables `data` and
`target`; each evaluation cell is a state transformer returning its result
together with the (possibly updated) state.  The library calls are modelled
as pure: they read the state and return results. -/

/-- The external inputs of one run of the baseline notebook: the loader's
output, the abstract fitted-estimator families, and the random streams of
the seeded splitter and of the label shuffles. -/
structure BaselineEnv (α : Type) where
  rawData : Fin nCH → α
  rawTarget : Fin nCH → ℚ
  treeReg : Regressor α
  treeRegPerm : Regressor α
  cvPerms : Nat → Equiv.Perm (Fin nCH)
  labelPerms : Nat → Equiv.Perm (Fin nCH)

/-- The notebook's variables `data` and `target`. -/
structure BaselineState (α : Type) where
  data : Fin nCH → α
  target : Fin nCH → ℚ

/-- The loading cell: `fetch_california_housing` then `target *= 100`. -/
def loadCell (env : BaselineEnv α) : BaselineState α :=
  ⟨env.rawData, fun i => env.rawTarget i * 100⟩

/-- A `cross_validate(..., scoring="neg_mean_absolute_error")` cell:
returns the test scores and leaves the state unchanged. -/
def crossValidateCell (reg : Regressor α) (πs : Nat → Equiv.Perm (Fin nCH))
    (st : BaselineState α) : List ℚ × BaselineState α :=
  (cvTestScores reg st.data st.target πs, st)

/-- A `permutation_test_score(..., n_permutations=30)` cell: returns
`(score, permutation_scores, pvalue)` and leaves the state unchanged — the
label shuffles are applied to internal copies of the target. -/
def permutationTestCell (reg : Regressor α)
    (πs σs : Nat → Equiv.Perm (Fin nCH)) (st : BaselineState α) :
    (ℚ × List ℚ × ℚ) × BaselineState α :=
  ((permutationObservedScore reg st.data st.target πs,
    permutationScores reg st.data st.target πs σs,
    permutationPValue reg st.data st.target πs σs), st)

/-- All values the baseline notebook computes and plots. -/
structure BaselineResults where
  errorsRegressor : List ℚ
  errorsDummy : List ℚ
  observedScore : ℚ
  permutationScoreList : List ℚ
  pvalue : ℚ
  errorsPermutation : List ℚ

/-- One run of the baseline notebook, cell by cell. -/
def runBaseline (env : BaselineEnv α) : BaselineResults × BaselineState α :=
  let st0 := loadCell env
  let r1 := crossValidateCell env.treeReg env.cvPerms st0
  let r2 := crossValidateCell dummyRegressor env.cvPerms r1.2
  let r3 := permutationTestCell env.treeRegPerm env.cvPerms env.labelPerms r2.2
  (⟨errorsOf r1.1, errorsOf r2.1, r3.1.1, r3.1.2.1, r3.1.2.2,
    errorsOf r3.1.2.1⟩, r3.2)

/-! ## The learning-curve notebook as a sequential program -/

/-- The external inputs of one run of the learning-curve notebook: the
loader's output, the abstract decision-tree family, and the entropy of its
unseeded `ShuffleSplit`. -/
structure LearnCurveEnv (α : Type) where
  rawData : Fin nCH → α
  rawTarget : Fin nCH → ℚ
  treeReg : Regressor α
  cvPerms : Nat → Equiv.Perm (Fin nCH)

/-- The learning-curve notebook's loading cell: `fetch_california_housing`
then `target *= 100`. -/
def loadCellLC (env : LearnCurveEnv α) : BaselineState α :=
  ⟨env.rawData, fun i => env.rawTarget i * 100⟩

/-- All values the learning-curve notebook's `learning_curve` cell computes
and plots: the absolute train sizes and the two error matrices. -/
structure LearnCurveResults where
  trainSizesAbs : List Nat
  trainErrors : List (List ℚ)
  testErrors : List (List ℚ)

/-- One run of the learning-curve notebook: load, call `learning_curve`,
negate the score matrices into error matrices. -/
def runLearningCurve (env : LearnCurveEnv α) :
    LearnCurveResults × BaselineState α :=
  let st := loadCellLC env
  (⟨lcAbsSizes env.cvPerms,
    errorsOfMatrix (lcTrainScores env.treeReg st.data st.target env.cvPerms),
    errorsOfMatrix (lcTestScores env.treeReg st.data st.target env.cvPerms)⟩,
   st)

/-! ## The nested-cross-validation notebook's trial loop -/

/-- External inputs of the nested-cross-validation notebook: loader output,
the abstract `SVC` family, and per-trial random streams (trial `i` seeds
both `KFold(4, shuffle=True, random_state=i)` splitters). -/
structure NestedEnv (α : Type) where
  rawData : Fin nBC → α
  rawTarget : Fin nBC → Bool
  svc : SVCFamily α
  innerShuffle : Nat → List (α × Bool) → List (α × Bool)
  outerPerm : Nat → Equiv.Perm (Fin nBC)

/-- One trial of the `N_TRIALS` loop: the mean of the four outer-fold
nested scores appended to `test_score_nested`. -/
def nestedTrialMean (env : NestedEnv α) (t : Nat) : ℚ :=
  (nestedCVScores env.svc (env.innerShuffle t) env.rawData env.rawTarget
    (env.outerPerm t)).sum / 4

/-- The notebook's `test_score_nested` list over the 20 trials. -/
def runNestedNotebook (env : NestedEnv α) : List ℚ :=
  (List.range 20).map (nestedTrialMean env)

/-! ## The feature-selection notebook -/

/-- A fitted classification estimator (no hyperparameter grid): fitting maps
a training sample to a predictor. -/
def ClassifierE (α : Type) : Type := List (α × Bool) → α → Bool

/-- The training sample of the synthetic classification data. -/
def fsample (data : Fin nFS → α) (target : Fin nFS → Bool)
    (idx : List (Fin nFS)) : List (α × Bool) :=
  idx.map fun i => (data i, target i)

/-- Accuracy of a predictor over the rows listed in `idx` (the default
classifier scorer used by `cross_validate(..., cv=5)`). -/
def accuracyIdx (pred : α → Bool) (data : Fin nFS → α)
    (target : Fin nFS → Bool) (idx : List (Fin nFS)) : ℚ :=
  ((idx.countP fun i => pred (data i) == target i : Nat) : ℚ) /
    (idx.length : ℚ)

/-- Modelled from the spec: the test scores of `cross_validate` of a
classifier over given train/test folds. -/
def cvAccScores (est : ClassifierE α) (data : Fin nFS → α)
    (target : Fin nFS → Bool)
    (folds : List (List (Fin nFS) × List (Fin nFS))) : List ℚ :=
  folds.map fun fr => accuracyIdx (est (fsample data target fr.1)) data target fr.2

/-- Modelled from the spec: `make_pipeline(feature_selector, classifier)` —
fit the selector on the training sample, transform the training rows, fit
the classifier on the transformed sample, and predict through the fitted
transform.  `SelectFromModel(RandomForestClassifier())` is the abstract
`selector`. -/
def makePipelineE (selector : List (α × Bool) → α → γ) (clf : ClassifierE γ) :
    ClassifierE α :=
  fun s a => clf (s.map fun r => (selector s r.1, r.2)) (selector s a)

/-- External inputs of the feature-selection notebook. -/
structure FSEnv (α γ : Type) where
  rawData : Fin nFS → α
  rawTarget : Fin nFS → Bool
  rfPlain : ClassifierE α
  rfFinal : ClassifierE γ
  selector : List (α × Bool) → α → γ
  folds : List (List (Fin nFS) × List (Fin nFS))

/-- One run of the feature-selection notebook: the two `test_score`
columns, without and with the selection step. -/
def runFeatureSelection (env : FSEnv α γ) : List ℚ × List ℚ :=
  (cvAccScores env.rfPlain env.rawData env.rawTarget env.folds,
   cvAccScores (makePipelineE env.selector env.rfFinal) env.rawData
     env.rawTarget env.folds)

/-! ## Concrete instances used to instantiate the theorems -/

/-- A constant regressor, as a concrete instance of the abstract family. -/
def constRegQ : Regressor ℚ := fun _ _ => 0

/-- All-zero data and target columns on the housing index set. -/
def zeroColCH : Fin nCH → ℚ := fun _ => 0

/-- The identity permutation stream on the housing index set. -/
def idPermsCH : Nat → Equiv.Perm (Fin nCH) := fun _ => Equiv.refl _

/-- A constant `SVC` family, as a concrete instance of the abstract family. -/
def witSVC : SVCFamily Unit := fun _ _ _ => true

/-- The identity inner shuffle. -/
def witShuffle : List (Unit × Bool) → List (Unit × Bool) := id

/-- Trivial data column on the breast-cancer index set. -/
def witDataBC : Fin nBC → Unit := fun _ => ()

/-- Constant target column on the breast-cancer index set. -/
def witTargetBC : Fin nBC → Bool := fun _ => true

/-- The identity permutation on the breast-cancer index set. -/
def witPermBC : Equiv.Perm (Fin nBC) := Equiv.refl _

/-! ## Supporting lemmas -/

lemma permutedIndices_length (n : Nat) (π : Equiv.Perm (Fin n)) :
    (permutedIndices n π).length = n := by
  simp [permutedIndices]

lemma permutedIndices_nodup (n : Nat) (π : Equiv.Perm (Fin n)) :
    (permutedIndices n π).Nodup :=
  (List.nodup_finRange n).map (Equiv.injective π)

lemma mem_permutedIndices (n : Nat) (π : Equiv.Perm (Fin n)) (x : Fin n) :
    x ∈ permutedIndices n π := by
  have hx : x = π (π.symm x) := (Equiv.apply_symm_apply π x).symm
  exact hx ▸ List.mem_map_of_mem π (List.mem_finRange (π.symm x))

lemma chTestSize_eq : chTestSize = 4128 := by decide

lemma kfoldStart_zero (n k : Nat) : kfoldStart n k 0 = 0 := by
  simp [kfoldStart]

lemma kfoldStart_succ (n k i : Nat) :
    kfoldStart n k (i + 1) = kfoldStart n k i + kfoldLen n k i := by
  unfold kfoldStart kfoldLen
  rcases Nat.lt_or_ge i (n % k) with h | h
  · rw [if_pos h, min_eq_left (by omega), min_eq_left (by omega)]
    ring
  · rw [if_neg (by omega), min_eq_right (by omega), min_eq_right h]
    ring

lemma kfoldStart_self (n k : Nat) (hk : 0 < k) : kfoldStart n k k = n := by
  unfold kfoldStart
  rw [min_eq_right (Nat.le_of_lt (Nat.mod_lt n hk))]
  exact Nat.div_add_mod n k

lemma kfTest_flatten_take (l : List β) (k m : Nat) :
    ((List.range m).map fun i => kfTest l k i).flatten
      = l.take (kfoldStart l.length k m) := by
  induction m with
  | zero => simp [kfoldStart_zero]
  | succ m ih =>
      rw [List.range_succ, List.map_append, List.flatten_append, ih]
      simp only [List.map_cons, List.map_nil, List.flatten_cons,
        List.flatten_nil, List.append_nil, kfTest]
      rw [← List.take_add, kfoldStart_succ]

lemma kfTest_flatten (l : List β) (k : Nat) (hk : 0 < k) :
    ((List.range k).map fun i => kfTest l k i).flatten = l := by
  rw [kfTest_flatten_take, kfoldStart_self l.length k hk, List.take_length]

/-- Every element of `l` lies in some `KFold` test fold: the folds jointly
cover the data. -/
lemma kfTest_cover (l : List β) (k : Nat) (hk : 0 < k) {x : β} (hx : x ∈ l) :
    ∃ i, i < k ∧ x ∈ kfTest l k i := by
  rw [← kfTest_flatten l k hk] at hx
  rcases List.mem_flatten.mp hx with ⟨s, hs, hxs⟩
  rcases List.mem_map.mp hs with ⟨i, hi, rfl⟩
  exact ⟨i, List.mem_range.mp hi, hxs⟩

/-- Distinct `KFold` test folds of a duplicate-free list are disjoint. -/
lemma kfTest_disjoint (l : List β) (hl : l.Nodup) (k : Nat) (hk : 0 < k)
    {i j : Nat} (hi : i < k) (hj : j < k) (hij : i ≠ j) :
    (kfTest l k i).Disjoint (kfTest l k j) := by
  have hnd : ((List.range k).map fun i => kfTest l k i).flatten.Nodup := by
    rw [kfTest_flatten l k hk]; exact hl
  obtain ⟨-, hpw⟩ := List.nodup_flatten.mp hnd
  rw [List.pairwise_iff_getElem] at hpw
  have hlen : ((List.range k).map fun i => kfTest l k i).length = k := by simp
  rcases Nat.lt_or_ge i j with h | h
  · have hd := hpw i j (by omega) (by omega) h
    simpa using hd
  · have hj' : j < i := by omega
    have hd := hpw j i (by omega) (by omega) hj'
    have hd' : (kfTest l k j).Disjoint (kfTest l k i) := by simpa using hd
    exact hd'.symm

/-- The test slice and the train part of one `KFold` fold of a duplicate-free
list are disjoint. -/
lemma kfTest_disjoint_kfTrain (l : List β) (hl : l.Nodup) (k i : Nat) :
    (kfTest l k i).Disjoint (kfTrain l k i) := by
  intro x hxTest hxTrain
  set s := kfoldStart l.length k i with hs
  set m := kfoldLen l.length k i with hm
  have hxd : x ∈ l.drop s := List.take_subset _ _ hxTest
  rcases List.mem_append.mp hxTrain with hxa | hxb
  · exact List.disjoint_take_drop hl (le_refl s) hxa hxd
  · have hdd : l.drop (s + m) = (l.drop s).drop m := by
      rw [List.drop_drop]
    have hnd : (l.drop s).Nodup := (List.drop_sublist s l).nodup hl
    have hxb' : x ∈ (l.drop s).drop m := hdd ▸ hxb
    exact List.disjoint_take_drop hnd (le_refl m) hxTest hxb'

lemma execSched_foldl {ι ρ : Type} [DecidableEq ι] (g : ι → ρ)
    (order : List ι) (acc : ι → Option ρ) (i : ι) :
    (order.foldl (fun acc i => Function.update acc i (some (g i))) acc) i
      = if i ∈ order then some (g i) else acc i := by
  induction order generalizing acc with
  | nil => simp
  | cons a rest ih =>
      rw [List.foldl_cons, ih]
      by_cases hmem : i ∈ rest
      · simp [hmem]
      · by_cases hia : i = a
        · subst hia; simp [hmem, Function.update]
        · simp [hmem, hia, Function.update]

/-- Any schedule that evaluates every work unit produces the same result
table. -/
lemma execSched_eq {ι ρ : Type} [DecidableEq ι] (g : ι → ρ)
    (order : List ι) (hmem : ∀ i, i ∈ order) :
    execSched g order = fun i => some (g i) := by
  funext i
  rw [execSched, execSched_foldl]
  simp [hmem i]

lemma sum_map_negation (l : List γ) (f : γ → ℚ) :
    (l.map fun x => -(f x)).sum = -((l.map f).sum) := by
  induction l with
  | nil => simp
  | cons a t ih => simp [ih]; ring

lemma errorsOf_errorsOf (l : List ℚ) : errorsOf (errorsOf l) = l := by
  simp [errorsOf, List.map_map, Function.comp_def, neg_neg]

lemma errorsOfMatrix_errorsOfMatrix (m : List (List ℚ)) :
    errorsOfMatrix (errorsOfMatrix m) = m := by
  simp [errorsOfMatrix, List.map_map, Function.comp_def, errorsOf_errorsOf]

/-- Negating the mean cross-validation score gives the mean of the folds'
mean absolute errors. -/
lemma neg_cvMeanScore (reg : Regressor α) (data : Fin nCH → α)
    (target : Fin nCH → ℚ) (πs : Nat → Equiv.Perm (Fin nCH)) :
    - cvMeanScore reg data target πs
      = ((List.range 30).map fun j =>
          meanAbsErr (reg (rsample data target (chTrainIdx (πs j)))) data
            target (chTestIdx (πs j))).sum / 30 := by
  rw [cvMeanScore, ← neg_div]
  congr 1
  have h : cvTestScores reg data target πs
      = ((List.range 30).map fun j =>
          -(meanAbsErr (reg (rsample data target (chTrainIdx (πs j)))) data
              target (chTestIdx (πs j)))) := rfl
  rw [h, sum_map_negation, neg_neg]

lemma meanAbsErr_nonneg (pred : α → ℚ) (data : Fin n → α)
    (target : Fin n → ℚ) (idx : List (Fin n)) :
    0 ≤ meanAbsErr pred data target idx := by
  unfold meanAbsErr
  apply div_nonneg
  · apply List.sum_nonneg
    intro x hx
    rcases List.mem_map.mp hx with ⟨i, -, rfl⟩
    exact abs_nonneg _
  · exact Nat.cast_nonneg _

lemma chTrainIdx_length (π : Equiv.Perm (Fin nCH)) :
    (chTrainIdx π).length = 16512 := by
  rw [chTrainIdx, shuffleTrainIdx, List.length_drop, permutedIndices_length,
    chTestSize_eq]
  norm_num

lemma lcSubTrainIdx_length (π : Equiv.Perm (Fin nCH)) (f : ℚ) :
    (lcSubTrainIdx π f).length = min (Int.toNat ⌊f * 16512⌋) 16512 := by
  rw [lcSubTrainIdx, List.length_take, chTrainIdx_length]
  norm_num

lemma headD_map_range (m : Nat) (hm : 0 < m) (g : Nat → γ) (d : γ) :
    (((List.range m).map g).headD d) = g 0 := by
  rcases Nat.exists_eq_succ_of_ne_zero (Nat.pos_iff_ne_zero.mp hm) with ⟨p, rfl⟩
  rw [List.range_succ_eq_map, List.map_cons, List.headD_cons]

lemma shuffleTestIdx_head (π : Equiv.Perm (Fin nCH)) :
    (shuffleTestIdx nCH chTestSize π).head? = some (π 0) := by
  rw [shuffleTestIdx, permutedIndices,
    show (List.finRange nCH)
        = (0 : Fin nCH) :: (List.finRange 20639).map Fin.succ
      from List.finRange_succ 20639,
    List.map_cons,
    show chTestSize = 4127 + 1 from by rw [chTestSize_eq],
    List.take_succ_cons, List.head?_cons]

lemma ssSplitsRun_headD (spec : ShuffleSplitSpec)
    (entropy : Nat → Equiv.Perm (Fin nCH)) (hpos : 0 < spec.nSplits) :
    (ssSplitsRun spec entropy).headD ([], [])
      = (shuffleTrainIdx nCH chTestSize (streamFor spec entropy 0),
         shuffleTestIdx nCH chTestSize (streamFor spec entropy 0)) := by
  rw [ssSplitsRun, headD_map_range spec.nSplits hpos]

/-! ## The claims -/

/-- C1: in the nested cross-validation, hyperparameter selection is confined
to the inner loop and performance estimation to the outer loop.  For any
outer `KFold(4)` fold `f`: (i) the grid-search selection over `param_grid`
is a function of the rows of that fold's training set alone — two datasets
agreeing on the outer training indices yield the same selected parameters,
so the inner 4-fold cross-validation never reads the outer test fold;
(ii) the outer test fold is disjoint from the outer training set; and
(iii) the fold's `cross_val_score` test score is exactly the accuracy of
the refitted best estimator on the outer test fold — the only use of that
fold. -/
theorem nested_cv_separates_selection_from_evaluation {α : Type}
    (clf : SVCFamily α) (sh : List (α × Bool) → List (α × Bool))
    (data1 data2 : Fin nBC → α) (target1 target2 : Fin nBC → Bool)
    (π : Equiv.Perm (Fin nBC)) (f : Nat)
    (hagree : ∀ i ∈ outerTrainIdxBC π f,
      data1 i = data2 i ∧ target1 i = target2 i) :
    gridSearchBestParams clf sh (csample data1 target1 (outerTrainIdxBC π f))
        = gridSearchBestParams clf sh (csample data2 target2 (outerTrainIdxBC π f))
      ∧ List.Disjoint (outerTestIdxBC π f) (outerTrainIdxBC π f)
      ∧ nestedFoldScore clf sh data1 target1 π f
        = accuracyOn
            (clf
              (gridSearchBestParams clf sh
                (csample data1 target1 (outerTrainIdxBC π f)))
              (csample data1 target1 (outerTrainIdxBC π f)))
            (csample data1 target1 (outerTestIdxBC π f)) := by
  have hsample : csample data1 target1 (outerTrainIdxBC π f)
      = csample data2 target2 (outerTrainIdxBC π f) := by
    apply List.map_congr_left
    intro i hi
    rw [(hagree i hi).1, (hagree i hi).2]
  refine ⟨by rw [hsample], ?_, rfl⟩
  exact kfTest_disjoint_kfTrain (permutedIndices nBC π)
    (permutedIndices_nodup nBC π) 4 f

/-- Witness for C1 at a concrete instantiation: the constant classifier on
trivial data, identity shuffles, outer fold 0. -/
theorem nested_cv_separation_witness :
    gridSearchBestParams witSVC witShuffle
        (csample witDataBC witTargetBC (outerTrainIdxBC witPermBC 0))
        = gridSearchBestParams witSVC witShuffle
            (csample witDataBC witTargetBC (outerTrainIdxBC witPermBC 0))
      ∧ List.Disjoint (outerTestIdxBC witPermBC 0) (outerTrainIdxBC witPermBC 0)
      ∧ nestedFoldScore witSVC witShuffle witDataBC witTargetBC witPermBC 0
        = accuracyOn
            (witSVC
              (gridSearchBestParams witSVC witShuffle
                (csample witDataBC witTargetBC (outerTrainIdxBC witPermBC 0)))
              (csample witDataBC witTargetBC (outerTrainIdxBC witPermBC 0)))
            (csample witDataBC witTargetBC (outerTestIdxBC witPermBC 0)) :=
  nested_cv_separates_selection_from_evaluation witSVC witShuffle
    witDataBC witDataBC witTargetBC witTargetBC witPermBC 0
    (fun _ _ => ⟨rfl, rfl⟩)

/-- C2 counterexample: the claim is false for the `ShuffleSplit` objects.
Whatever permutations the generator draws, the 30 test sets of
`ShuffleSplit(n_splits=30, test_size=0.2)` on the 20640 housing rows each
have 4128 elements, and 30 pairwise-disjoint such sets would need
30 · 4128 = 123840 distinct rows; so the test sets can never be pairwise
disjoint (hence never partition the dataset). -/
theorem shuffleSplit_test_sets_cannot_partition :
    ¬ ∃ πs : Nat → Equiv.Perm (Fin nCH),
        (∀ i j : Fin 30, i ≠ j →
          List.Disjoint (chTestIdx (πs i)) (chTestIdx (πs j)))
        ∧ (∀ x : Fin nCH, ∃ j : Fin 30, x ∈ chTestIdx (πs j)) := by
  rintro ⟨πs, hdisj, -⟩
  set T : Fin 30 → Finset (Fin nCH) := fun j => (chTestIdx (πs j)).toFinset
    with hT
  have hdisjF : ∀ i ∈ (Finset.univ : Finset (Fin 30)), ∀ j ∈ Finset.univ,
      i ≠ j → Disjoint (T i) (T j) := by
    intro i _ j _ hij
    rw [Finset.disjoint_left]
    intro a hai haj
    exact hdisj i j hij (List.mem_toFinset.mp hai) (List.mem_toFinset.mp haj)
  have hcard : ∀ j : Fin 30, (T j).card = 4128 := by
    intro j
    have hnd : (chTestIdx (πs j)).Nodup :=
      (List.take_sublist _ _).nodup (permutedIndices_nodup nCH (πs j))
    rw [hT]
    rw [List.toFinset_card_of_nodup hnd]
    show ((permutedIndices nCH (πs j)).take chTestSize).length = 4128
    rw [List.length_take, permutedIndices_length, chTestSize_eq]
    norm_num
  have hle : (Finset.univ.biUnion T).card ≤ 20640 := by
    have h := Finset.card_le_univ (Finset.univ.biUnion T)
    rwa [Fintype.card_fin] at h
  rw [Finset.card_biUnion hdisjF] at hle
  rw [Finset.sum_congr rfl fun j _ => hcard j] at hle
  rw [Finset.sum_const, Finset.card_univ, Fintype.card_fin, smul_eq_mul] at hle
  norm_num at hle

/-- C2 amended: each cross-validation object keeps hyperparameter-free
bookkeeping of folds, but only the `KFold(n_splits=4)` objects partition the
dataset across their test folds.  The `KFold(4)` test folds over the 569
breast-cancer rows are pairwise disjoint and jointly cover the data for any
shuffle; each single `ShuffleSplit` split partitions the housing rows into
its disjoint test and train sets, while across its 30 splits the test sets
overlap (previous theorem). -/
theorem cv_splits_partition_amended :
    (∀ π : Equiv.Perm (Fin nBC), ∀ i j : Fin 4, i ≠ j →
        List.Disjoint (kfoldTestIdx nBC 4 π i.1) (kfoldTestIdx nBC 4 π j.1))
      ∧ (∀ π : Equiv.Perm (Fin nBC), ∀ x : Fin nBC,
          ∃ i : Fin 4, x ∈ kfoldTestIdx nBC 4 π i.1)
      ∧ (∀ π : Equiv.Perm (Fin nCH),
          List.Disjoint (chTestIdx π) (chTrainIdx π)
            ∧ ∀ x : Fin nCH, x ∈ chTestIdx π ∨ x ∈ chTrainIdx π) := by
  refine ⟨?_, ?_, ?_⟩
  · intro π i j hij
    exact kfTest_disjoint (permutedIndices nBC π) (permutedIndices_nodup nBC π)
      4 (by norm_num) i.2 j.2 (fun h => hij (Fin.val_injective h))
  · intro π x
    rcases kfTest_cover (permutedIndices nBC π) 4 (by norm_num)
        (mem_permutedIndices nBC π x) with ⟨i, hik, hmem⟩
    exact ⟨⟨i, hik⟩, hmem⟩
  · intro π
    constructor
    · exact List.disjoint_take_drop (permutedIndices_nodup nCH π)
        (le_refl chTestSize)
    · intro x
      have hx : x ∈ (permutedIndices nCH π).take chTestSize
          ++ (permutedIndices nCH π).drop chTestSize := by
        rw [List.take_append_drop]
        exact mem_permutedIndices nCH π x
      exact List.mem_append.mp hx

/-- Witness for C2's amended theorem at a concrete input: folds 0 and 1 of
the identity shuffle are disjoint. -/
theorem cv_splits_partition_amended_witness :
    List.Disjoint (kfoldTestIdx nBC 4 witPermBC (0 : Fin 4).1)
      (kfoldTestIdx nBC 4 witPermBC (1 : Fin 4).1) :=
  cv_splits_partition_amended.1 witPermBC 0 1 (by decide)

/-- C3: the dummy baseline is a trivial predictor of the mean.  On every
`ShuffleSplit` training fold (which has 16512 rows, hence is non-empty) the
fitted `DummyRegressor` predicts, for every input row, the arithmetic mean
of the fold's target values; the prediction does not depend on the input's
features. -/
theorem dummy_baseline_predicts_train_mean {α : Type} (data : Fin nCH → α)
    (target : Fin nCH → ℚ) (πs : Nat → Equiv.Perm (Fin nCH)) (j : Nat)
    (x y : α) :
    dummyRegressor (rsample data target (chTrainIdx (πs j))) x
        = ((chTrainIdx (πs j)).map target).sum
            / ((chTrainIdx (πs j)).length : ℚ)
      ∧ (chTrainIdx (πs j)).length = 16512
      ∧ dummyRegressor (rsample data target (chTrainIdx (πs j))) x
        = dummyRegressor (rsample data target (chTrainIdx (πs j))) y := by
  refine ⟨?_, chTrainIdx_length (πs j), rfl⟩
  simp [dummyRegressor, rsample, List.map_map, Function.comp_def]

/-- C4: each of the 30 permutation scores of `permutation_test_score` is the
mean cross-validation score of the estimator on the unchanged feature data
paired with a shuffled target, and the shuffled target is a genuine
rearrangement: as a multiset over all rows it equals the original target. -/
theorem permutation_test_shuffles_labels {α : Type} (reg : Regressor α)
    (data : Fin nCH → α) (target : Fin nCH → ℚ)
    (πs σs : Nat → Equiv.Perm (Fin nCH)) (j : Fin 30) :
    (permutationScores reg data target πs σs).getD j.1 0
        = cvMeanScore reg data (permutedTarget target (σs j.1)) πs
      ∧ Finset.univ.val.map (permutedTarget target (σs j.1))
        = Finset.univ.val.map target := by
  constructor
  · have hj : j.1 < (permutationScores reg data target πs σs).length := by
      simp [permutationScores]
    rw [List.getD_eq_getElem _ _ hj]
    simp [permutationScores]
  · have huniv : Finset.univ.val.map (σs j.1 : Fin nCH → Fin nCH)
        = Finset.univ.val := by
      have h := Finset.map_univ_equiv (σs j.1)
      have hv := congrArg Finset.val h
      rw [Finset.map_val, Equiv.coe_toEmbedding] at hv
      exact hv
    calc Finset.univ.val.map (permutedTarget target (σs j.1))
        = (Finset.univ.val.map (σs j.1)).map target := by
          rw [Multiset.map_map]; rfl
      _ = Finset.univ.val.map target := by rw [huniv]

/-- C5: the learning curve is computed as a function of the number of
training samples: the train-size grid is exactly the five evenly spaced
fractions `[0.1, 0.325, 0.55, 0.775, 1.0]` (the corresponding absolute
sizes over the 16512 available training rows being
`[1651, 5366, 9081, 12796, 16512]`), and the score matrices have one row
per size and 30 columns (one per `ShuffleSplit` split), for both training
and testing scores. -/
theorem learning_curve_sizes_and_shape {α : Type} (reg : Regressor α)
    (data : Fin nCH → α) (target : Fin nCH → ℚ)
    (πs : Nat → Equiv.Perm (Fin nCH)) :
    lcTrainSizes = [1/10, 13/40, 11/20, 31/40, 1]
      ∧ lcAbsSizes πs = [1651, 5366, 9081, 12796, 16512]
      ∧ (lcTrainScores reg data target πs).length = 5
      ∧ (lcTestScores reg data target πs).length = 5
      ∧ (∀ row ∈ lcTrainScores reg data target πs, row.length = 30)
      ∧ (∀ row ∈ lcTestScores reg data target πs, row.length = 30) := by
  have hsizes : lcTrainSizes = [1/10, 13/40, 11/20, 31/40, 1] := by
    norm_num [lcTrainSizes, linspaceQ, List.range_succ]
  refine ⟨hsizes, ?_, ?_, ?_, ?_, ?_⟩
  · rw [lcAbsSizes, hsizes]
    simp only [List.map_cons, List.map_nil, lcSubTrainIdx_length]
    norm_num [Int.floor_eq_iff]
    omega
  · simp [lcTrainScores, hsizes]
  · simp [lcTestScores, hsizes]
  · intro row hrow
    rcases List.mem_map.mp hrow with ⟨f, -, rfl⟩
    simp
  · intro row hrow
    rcases List.mem_map.mp hrow with ⟨f, -, rfl⟩
    simp

/-- C6: everywhere the notebooks use `scoring="neg_mean_absolute_error"`,
the errors they build and plot are the element-wise negation of the
library's scores, each error is a (nonnegative) mean absolute error, and
negating twice recovers the scores.  This holds for the baseline
`cross_validate` series (the regressor's and, instantiating `reg` with
`dummyRegressor`, the dummy's), for the `permutation_test_score` series
(each permuted error is the mean of the folds' mean absolute errors under
the shuffled target), and for both learning-curve error matrices. -/
theorem errors_are_negated_mae_scores {α : Type} (reg : Regressor α)
    (data : Fin nCH → α) (target : Fin nCH → ℚ)
    (πs σs : Nat → Equiv.Perm (Fin nCH)) :
    (errorsOf (cvTestScores reg data target πs)
        = ((List.range 30).map fun j =>
            meanAbsErr (reg (rsample data target (chTrainIdx (πs j))))
              data target (chTestIdx (πs j))))
      ∧ (∀ e ∈ errorsOf (cvTestScores reg data target πs), 0 ≤ e)
      ∧ errorsOf (errorsOf (cvTestScores reg data target πs))
        = cvTestScores reg data target πs
      ∧ (errorsOf (permutationScores reg data target πs σs)
          = ((List.range 30).map fun p =>
              ((List.range 30).map fun j =>
                meanAbsErr
                  (reg (rsample data (permutedTarget target (σs p))
                    (chTrainIdx (πs j))))
                  data (permutedTarget target (σs p))
                  (chTestIdx (πs j))).sum / 30))
      ∧ (∀ e ∈ errorsOf (permutationScores reg data target πs σs), 0 ≤ e)
      ∧ errorsOf (errorsOf (permutationScores reg data target πs σs))
        = permutationScores reg data target πs σs
      ∧ (errorsOfMatrix (lcTrainScores reg data target πs)
          = lcTrainSizes.map fun f =>
              (List.range 30).map fun j =>
                meanAbsErr
                  (reg (rsample data target (lcSubTrainIdx (πs j) f)))
                  data target (lcSubTrainIdx (πs j) f))
      ∧ (∀ row ∈ errorsOfMatrix (lcTrainScores reg data target πs),
          ∀ e ∈ row, 0 ≤ e)
      ∧ errorsOfMatrix (errorsOfMatrix (lcTrainScores reg data target πs))
        = lcTrainScores reg data target πs
      ∧ (errorsOfMatrix (lcTestScores reg data target πs)
          = lcTrainSizes.map fun f =>
              (List.range 30).map fun j =>
                meanAbsErr
                  (reg (rsample data target (lcSubTrainIdx (πs j) f)))
                  data target (chTestIdx (πs j)))
      ∧ (∀ row ∈ errorsOfMatrix (lcTestScores reg data target πs),
          ∀ e ∈ row, 0 ≤ e)
      ∧ errorsOfMatrix (errorsOfMatrix (lcTestScores reg data target πs))
        = lcTestScores reg data target πs := by
  refine ⟨?_, ?_, errorsOf_errorsOf _, ?_, ?_, errorsOf_errorsOf _, ?_, ?_,
    errorsOfMatrix_errorsOfMatrix _, ?_, ?_, errorsOfMatrix_errorsOfMatrix _⟩
  · simp [errorsOf, cvTestScores, cvFoldScore, negMeanAbsErr, List.map_map,
      Function.comp_def, neg_neg]
  · intro e he
    rcases List.mem_map.mp he with ⟨s, hs, rfl⟩
    rcases List.mem_map.mp hs with ⟨j, -, rfl⟩
    simp only [cvFoldScore, negMeanAbsErr, neg_neg]
    exact meanAbsErr_nonneg _ _ _ _
  · rw [errorsOf, permutationScores, List.map_map]
    apply List.map_congr_left
    intro p _
    exact neg_cvMeanScore reg data (permutedTarget target (σs p)) πs
  · intro e he
    rcases List.mem_map.mp he with ⟨s, hs, rfl⟩
    rcases List.mem_map.mp hs with ⟨p, -, rfl⟩
    rw [neg_cvMeanScore reg data (permutedTarget target (σs p)) πs]
    apply div_nonneg _ (by norm_num)
    apply List.sum_nonneg
    intro x hx
    rcases List.mem_map.mp hx with ⟨j, -, rfl⟩
    exact meanAbsErr_nonneg _ _ _ _
  · simp [errorsOfMatrix, errorsOf, lcTrainScores, List.map_map,
      Function.comp_def, negMeanAbsErr, neg_neg]
  · intro row hrow e he
    rcases List.mem_map.mp hrow with ⟨r, hr, rfl⟩
    rcases List.mem_map.mp hr with ⟨f, -, rfl⟩
    rcases List.mem_map.mp he with ⟨s, hs, rfl⟩
    rcases List.mem_map.mp hs with ⟨j, -, rfl⟩
    simp only [negMeanAbsErr, neg_neg]
    exact meanAbsErr_nonneg _ _ _ _
  · simp [errorsOfMatrix, errorsOf, lcTestScores, List.map_map,
      Function.comp_def, negMeanAbsErr, neg_neg]
  · intro row hrow e he
    rcases List.mem_map.mp hrow with ⟨r, hr, rfl⟩
    rcases List.mem_map.mp hr with ⟨f, -, rfl⟩
    rcases List.mem_map.mp he with ⟨s, hs, rfl⟩
    rcases List.mem_map.mp hs with ⟨j, -, rfl⟩
    simp only [negMeanAbsErr, neg_neg]
    exact meanAbsErr_nonneg _ _ _ _

/-- C7: each notebook only loads a dataset, delegates every non-trivial
operation to the library, and plots: accordingly every computed result is
literally the corresponding library routine applied to the loaded inputs —
the baseline notebook's error series are the negated `cross_validate` and
`permutation_test_score` outputs on the loaded housing data, the
learning-curve notebook's absolute train sizes and error matrices are the
(negated) `learning_curve` outputs on the loaded housing data, the nested
notebook's `test_score_nested` entries are means of the nested
`cross_val_score` folds on the loaded breast-cancer data, and the
feature-selection notebook's two score columns are `cross_validate` of the
plain random forest and of the `SelectFromModel` pipeline on the loaded
synthetic data. -/
theorem notebooks_delegate_to_library {α β γ δ ε : Type}
    (envB : BaselineEnv α) (envL : LearnCurveEnv β) (envN : NestedEnv γ)
    (envF : FSEnv δ ε) :
    (runBaseline envB).1.errorsRegressor
        = errorsOf (cvTestScores envB.treeReg (loadCell envB).data
            (loadCell envB).target envB.cvPerms)
      ∧ (runBaseline envB).1.errorsDummy
        = errorsOf (cvTestScores dummyRegressor (loadCell envB).data
            (loadCell envB).target envB.cvPerms)
      ∧ (runBaseline envB).1.permutationScoreList
        = permutationScores envB.treeRegPerm (loadCell envB).data
            (loadCell envB).target envB.cvPerms envB.labelPerms
      ∧ (runLearningCurve envL).1.trainSizesAbs = lcAbsSizes envL.cvPerms
      ∧ (runLearningCurve envL).1.trainErrors
        = errorsOfMatrix (lcTrainScores envL.treeReg (loadCellLC envL).data
            (loadCellLC envL).target envL.cvPerms)
      ∧ (runLearningCurve envL).1.testErrors
        = errorsOfMatrix (lcTestScores envL.treeReg (loadCellLC envL).data
            (loadCellLC envL).target envL.cvPerms)
      ∧ runNestedNotebook envN
        = ((List.range 20).map fun t =>
            (nestedCVScores envN.svc (envN.innerShuffle t) envN.rawData
              envN.rawTarget (envN.outerPerm t)).sum / 4)
      ∧ (runFeatureSelection envF).1
        = cvAccScores envF.rfPlain envF.rawData envF.rawTarget envF.folds
      ∧ (runFeatureSelection envF).2
        = cvAccScores (makePipelineE envF.selector envF.rfFinal) envF.rawData
            envF.rawTarget envF.folds :=
  ⟨rfl, rfl, rfl, rfl, rfl, rfl, rfl, rfl, rfl⟩

/-- C8: the notebooks perform no concurrency coordination of their own —
every parallel (`n_jobs=2`) work unit the library routines spawn is a pure
function of its unit index, so any scheduler order that runs every unit
yields the same result table.  This covers all the parallel evaluations
the notebooks trigger: the 30 `cross_validate` folds, the 6 × 4 grid-search
candidate–fold evaluations of `GridSearchCV` (whose mean per candidate is
exactly the sum of those units over 4, as the bridge conjunct states), the
4 outer `cross_val_score` folds of the nested cross-validation, and the
5 × 30 `learning_curve` size–split evaluations (which are exactly the
entries of the two score matrices, as the last two conjuncts state). -/
theorem parallel_fold_schedule_irrelevant {α γ : Type} (reg : Regressor α)
    (data : Fin nCH → α) (target : Fin nCH → ℚ)
    (πs : Nat → Equiv.Perm (Fin nCH)) (clf : SVCFamily γ)
    (sh : List (γ × Bool) → List (γ × Bool)) (s : List (γ × Bool))
    (dataBC : Fin nBC → γ) (targetBC : Fin nBC → Bool)
    (π : Equiv.Perm (Fin nBC))
    (orderCV : List (Fin 30)) (orderGrid : List (Fin 6 × Fin 4))
    (orderOuter : List (Fin 4)) (orderLC : List (Fin 5 × Fin 30))
    (hCV : ∀ i, i ∈ orderCV) (hGrid : ∀ i, i ∈ orderGrid)
    (hOuter : ∀ i, i ∈ orderOuter) (hLC : ∀ i, i ∈ orderLC) :
    (execSched (fun j : Fin 30 => cvFoldScore reg data target πs j.1) orderCV
        = fun j : Fin 30 => some (cvFoldScore reg data target πs j.1))
      ∧ (execSched (fun ci : Fin 6 × Fin 4 =>
            gridCandidateFoldScore clf sh s
              (paramGrid.getD ci.1.1 (1/10, 1/100)) ci.2.1) orderGrid
          = fun ci : Fin 6 × Fin 4 =>
              some (gridCandidateFoldScore clf sh s
                (paramGrid.getD ci.1.1 (1/10, 1/100)) ci.2.1))
      ∧ (∀ p : SVCParams, innerCVMeanScore clf p sh s
          = ((List.range 4).map fun i =>
              gridCandidateFoldScore clf sh s p i).sum / 4)
      ∧ (execSched (fun f : Fin 4 =>
            nestedFoldScore clf sh dataBC targetBC π f.1) orderOuter
          = fun f : Fin 4 =>
              some (nestedFoldScore clf sh dataBC targetBC π f.1))
      ∧ (execSched (fun tj : Fin 5 × Fin 30 =>
            (lcUnitTrainScore reg data target πs tj.1.1 tj.2.1,
             lcUnitTestScore reg data target πs tj.1.1 tj.2.1)) orderLC
          = fun tj : Fin 5 × Fin 30 =>
              some (lcUnitTrainScore reg data target πs tj.1.1 tj.2.1,
                lcUnitTestScore reg data target πs tj.1.1 tj.2.1))
      ∧ lcTrainScores reg data target πs
        = ((List.range 5).map fun t => (List.range 30).map fun j =>
            lcUnitTrainScore reg data target πs t j)
      ∧ lcTestScores reg data target πs
        = ((List.range 5).map fun t => (List.range 30).map fun j =>
            lcUnitTestScore reg data target πs t j) := by
  have hsz : lcTrainSizes = [1/10, 13/40, 11/20, 31/40, 1] := by
    norm_num [lcTrainSizes, linspaceQ, List.range_succ]
  refine ⟨execSched_eq _ orderCV hCV, execSched_eq _ orderGrid hGrid,
    fun p => rfl, execSched_eq _ orderOuter hOuter,
    execSched_eq _ orderLC hLC, ?_, ?_⟩
  · simp only [lcTrainScores, lcUnitTrainScore]
    rw [hsz]
    rfl
  · simp only [lcTestScores, lcUnitTestScore]
    rw [hsz]
    rfl

/-- Witness for C8 at a concrete input: in-order schedules of all four
kinds of work units, with the constant regressor and classifier. -/
theorem parallel_fold_schedule_irrelevant_witness :
    (execSched (fun j : Fin 30 =>
        cvFoldScore constRegQ zeroColCH zeroColCH idPermsCH j.1)
        (List.finRange 30)
        = fun j : Fin 30 =>
            some (cvFoldScore constRegQ zeroColCH zeroColCH idPermsCH j.1))
      ∧ (execSched (fun ci : Fin 6 × Fin 4 =>
            gridCandidateFoldScore witSVC witShuffle []
              (paramGrid.getD ci.1.1 (1/10, 1/100)) ci.2.1)
            ((List.finRange 6).product (List.finRange 4))
          = fun ci : Fin 6 × Fin 4 =>
              some (gridCandidateFoldScore witSVC witShuffle []
                (paramGrid.getD ci.1.1 (1/10, 1/100)) ci.2.1))
      ∧ (∀ p : SVCParams, innerCVMeanScore witSVC p witShuffle []
          = ((List.range 4).map fun i =>
              gridCandidateFoldScore witSVC witShuffle [] p i).sum / 4)
      ∧ (execSched (fun f : Fin 4 =>
            nestedFoldScore witSVC witShuffle witDataBC witTargetBC
              witPermBC f.1) (List.finRange 4)
          = fun f : Fin 4 =>
              some (nestedFoldScore witSVC witShuffle witDataBC witTargetBC
                witPermBC f.1))
      ∧ (execSched (fun tj : Fin 5 × Fin 30 =>
            (lcUnitTrainScore constRegQ zeroColCH zeroColCH idPermsCH
              tj.1.1 tj.2.1,
             lcUnitTestScore constRegQ zeroColCH zeroColCH idPermsCH
              tj.1.1 tj.2.1)) ((List.finRange 5).product (List.finRange 30))
          = fun tj : Fin 5 × Fin 30 =>
              some (lcUnitTrainScore constRegQ zeroColCH zeroColCH idPermsCH
                tj.1.1 tj.2.1,
                lcUnitTestScore constRegQ zeroColCH zeroColCH idPermsCH
                  tj.1.1 tj.2.1))
      ∧ lcTrainScores constRegQ zeroColCH zeroColCH idPermsCH
        = ((List.range 5).map fun t => (List.range 30).map fun j =>
            lcUnitTrainScore constRegQ zeroColCH zeroColCH idPermsCH t j)
      ∧ lcTestScores constRegQ zeroColCH zeroColCH idPermsCH
        = ((List.range 5).map fun t => (List.range 30).map fun j =>
            lcUnitTestScore constRegQ zeroColCH zeroColCH idPermsCH t j) :=
  parallel_fold_schedule_irrelevant constRegQ zeroColCH zeroColCH idPermsCH
    witSVC witShuffle [] witDataBC witTargetBC witPermBC
    (List.finRange 30) ((List.finRange 6).product (List.finRange 4))
    (List.finRange 4) ((List.finRange 5).product (List.finRange 30))
    (fun i => List.mem_finRange i)
    (fun i => List.pair_mem_product.mpr
      ⟨List.mem_finRange i.1, List.mem_finRange i.2⟩)
    (fun i => List.mem_finRange i)
    (fun i => List.pair_mem_product.mpr
      ⟨List.mem_finRange i.1, List.mem_finRange i.2⟩)

/-- C9: the baseline notebook's splits are reproducible while the
learning-curve notebook's are not.  The seeded
`ShuffleSplit(n_splits=30, test_size=0.2, random_state=0)` generates the
same sequence of 30 train/test splits in any two runs (its permutation
stream is a function of the seed alone), whereas for the unseeded
`ShuffleSplit(n_splits=30, test_size=0.2)` there exist two runs (two
entropy streams) whose split sequences differ. -/
theorem seeded_splits_reproducible_unseeded_not :
    (∀ e1 e2 : Nat → Equiv.Perm (Fin nCH),
        ssSplitsRun baselineCVSpec e1 = ssSplitsRun baselineCVSpec e2)
      ∧ (∃ e1 e2 : Nat → Equiv.Perm (Fin nCH),
          ssSplitsRun learningCurveCVSpec e1
            ≠ ssSplitsRun learningCurveCVSpec e2) := by
  constructor
  · intro e1 e2
    rfl
  · refine ⟨(fun _ => Equiv.refl _), (fun _ => Equiv.swap 0 1), fun h => ?_⟩
    have h0 : ((ssSplitsRun learningCurveCVSpec
          (fun _ => Equiv.refl _)).headD ([], [])).2.head?
        = ((ssSplitsRun learningCurveCVSpec
            (fun _ => Equiv.swap 0 1)).headD ([], [])).2.head? :=
      congrArg (fun L => (L.headD ([], [])).2.head?) h
    rw [ssSplitsRun_headD learningCurveCVSpec _ (by decide),
      ssSplitsRun_headD learningCurveCVSpec _ (by decide)] at h0
    dsimp only [streamFor, learningCurveCVSpec] at h0
    rw [shuffleTestIdx_head, shuffleTestIdx_head] at h0
    simp only [Equiv.refl_apply, Equiv.swap_apply_left, Option.some.injEq] at h0
    exact absurd h0 (by decide)

/-- C10: the evaluation routines leave the caller's dataset unchanged —
after the baseline notebook's two `cross_validate` calls and its
`permutation_test_score` call, the variables `data` and `target` still hold
exactly the loader's output with the `target *= 100` rescaling; in
particular the 30 label shuffles of the permutation test act on internal
copies, never on the notebook's `target`. -/
theorem evaluation_leaves_dataset_unchanged {α : Type}
    (envB : BaselineEnv α) :
    (runBaseline envB).2.data = envB.rawData
      ∧ (runBaseline envB).2.target = (fun i => envB.rawTarget i * 100)
      ∧ (runBaseline envB).2 = loadCell envB :=
  ⟨rfl, rfl, rfl⟩

end MLNotebooks
